import Mathlib

/-!
Verification of the TransformerTTS model core (src/model/models.py,
src/utils/metrics.py, src/utils/config_loader.py) against its
natural-language specification.

Tensors are embedded as (nested) lists of rationals; batch-parallel
tensor operations act per example / per head, so the per-example slice
of each operation is embedded.  The opaque neural layers (encoder,
decoder, prenets, postnet) are abstracted as function parameters: each
claim is about the surrounding control flow, slicing and arithmetic,
which the source spells out concretely.
-/

namespace TTS

/-- Maximum of a list of rationals (`tf.reduce_max` over the last axis;
the tensorflow op requires a non-empty axis, the default 0 is never
reached on well-formed inputs). -/
def listMax : List ℚ → ℚ
  | [] => 0
  | a :: t => t.foldl max a

/-- Index of the first maximal element (`tf.argmax` over the last axis;
ties resolve to the smallest index, as in tensorflow): the head is
returned when it already attains the maximum of the whole list,
otherwise the first maximum lies in the tail. -/
def listArgmax : List ℚ → ℕ
  | [] => 0
  | a :: t => if listMax (a :: t) ≤ a then 0 else listArgmax t + 1

/-- Python extended slice `l[0::r]`: every `r`-th element starting at
index 0 (`tar_inp[:, 0::self.r, :]` in `_gta_forward`). -/
def everyNth (r : ℕ) : List α → List α
  | [] => []
  | a :: t => a :: everyNth r (List.drop (r - 1) t)
termination_by l => l.length
decreasing_by simp [List.length_drop]; omega

@[simp] theorem everyNth_nil (r : ℕ) : everyNth r ([] : List α) = [] := by
  simp [everyNth]

@[simp] theorem everyNth_cons (r : ℕ) (a : α) (t : List α) :
    everyNth r (a :: t) = a :: everyNth r (List.drop (r - 1) t) := by
  simp [everyNth]

theorem everyNth_get? (r : ℕ) (hr : 1 ≤ r) (k : ℕ) :
    ∀ l : List α, (everyNth r l).get? k = l.get? (r * k) := by
  induction k with
  | zero =>
      intro l
      cases l with
      | nil => simp
      | cons a t => simp
  | succ k ih =>
      intro l
      cases l with
      | nil => simp
      | cons a t =>
          rw [everyNth_cons]
          show (everyNth r (List.drop (r - 1) t)).get? k = (a :: t).get? (r * (k + 1))
          rw [ih (List.drop (r - 1) t), List.get?_drop]
          have h1 : r * (k + 1) = (r - 1 + r * k) + 1 := by
            cases r with
            | zero => omega
            | succ n => ring_nf; omega
          rw [h1]
          rfl

/-! ### Autoregressive `predict` loop (models.py lines 230-253)

The neural decoder is opaque; what the loop control observes of it at
iteration `i` is the stop-probability distribution of the latest frame,
`model_out['stop_prob'][:, -1]`, abstracted as `stopDist i`.  Each
iteration appends the last `r` frames of `final_output` to the
accumulator `output_concat`, hence exactly `r` mel frames per executed
iteration (the returned `mel` excludes the initial start frame). -/

/-- Embeds `self.stop_prob_index = 2` (models.py line 47). -/
def stop_prob_index : ℕ := 2

/-- The `for i in range(cap)` loop with a `break`: given the break
condition per iteration index, returns (number of iterations executed,
whether the loop exited via `break`). -/
def predictLoopAux (stopf : ℕ → Bool) : ℕ → ℕ → ℕ × Bool
  | _, 0 => (0, false)
  | i, n + 1 =>
    if stopf i then (1, true)
    else
      let p := predictLoopAux stopf (i + 1) n
      (p.1 + 1, p.2)

/-- Result of `AutoregressiveTransformer.predict`: iteration count, mel
frame count of the returned `'mel'` entry, and whether the loop exited
through the stop branch. -/
structure PredictResult where
  iters : ℕ
  melFrames : ℕ
  stopped : Bool
  deriving DecidableEq, Repr

/-- The iteration bound `int(max_length // self.r) + 1` of the `range`
call (models.py line 238). -/
def predictCap (r maxLength : ℕ) : ℕ := maxLength / r + 1

/-- Embeds `AutoregressiveTransformer.predict` (models.py lines 230-253),
abstracting the decoder to the stream of latest-frame stop
distributions it produces.  The loop body runs, appends `r` frames,
then breaks iff `int(tf.argmax(stop_pred, axis=-1)) == self.stop_prob_index`. -/
def predict (stopDist : ℕ → List ℚ) (r maxLength : ℕ) : PredictResult :=
  let p := predictLoopAux (fun i => listArgmax (stopDist i) == stop_prob_index) 0
      (predictCap r maxLength)
  ⟨p.1, r * p.1, p.2⟩

theorem predictLoopAux_iters_le (stopf : ℕ → Bool) :
    ∀ n i, (predictLoopAux stopf i n).1 ≤ n := by
  intro n
  induction n with
  | zero => intro i; simp [predictLoopAux]
  | succ n ih =>
      intro i
      cases h : stopf i with
      | true => simp [predictLoopAux, h]
      | false =>
          simp only [predictLoopAux, h, Bool.false_eq_true, if_false]
          exact Nat.succ_le_succ (ih (i + 1))

theorem predictLoopAux_stopped_iff (stopf : ℕ → Bool) :
    ∀ n i, (predictLoopAux stopf i n).2 = true ↔ ∃ j, j < n ∧ stopf (i + j) = true := by
  intro n
  induction n with
  | zero =>
      intro i
      simp [predictLoopAux]
  | succ n ih =>
      intro i
      cases h : stopf i with
      | true =>
          simp only [predictLoopAux, h, if_true]
          constructor
          · intro _; exact ⟨0, Nat.succ_pos n, by simpa using h⟩
          · intro _; trivial
      | false =>
          simp only [predictLoopAux, h, Bool.false_eq_true, if_false]
          rw [ih (i + 1)]
          constructor
          · rintro ⟨j, hj, hs⟩
            refine ⟨j + 1, by omega, ?_⟩
            have hij : i + 1 + j = i + (j + 1) := by omega
            rwa [hij] at hs
          · rintro ⟨j, hj, hs⟩
            cases j with
            | zero => rw [Nat.add_zero] at hs; rw [hs] at h; exact absurd h (by simp)
            | succ j =>
                refine ⟨j, by omega, ?_⟩
                have hij : i + (j + 1) = i + 1 + j := by omega
                rwa [hij] at hs

theorem predictLoopAux_not_stopped (stopf : ℕ → Bool) :
    ∀ n i, (predictLoopAux stopf i n).2 = false → (predictLoopAux stopf i n).1 = n := by
  intro n
  induction n with
  | zero => intro i _; simp [predictLoopAux]
  | succ n ih =>
      intro i h
      cases hs : stopf i with
      | true => simp [predictLoopAux, hs] at h
      | false =>
          simp only [predictLoopAux, hs, Bool.false_eq_true, if_false] at h ⊢
          exact congrArg (· + 1) (ih (i + 1) h)

/-- C1 (counterexample): with `r = 3` and `max_length = 9` and a decoder
that never signals stop, the loop `for i in range(int(max_length // self.r) + 1)`
executes 4 iterations, not the claimed at most `ceil(max_length / r) = 3`,
and the returned mel holds 12 frames, not at most `max_length = 9`. -/
theorem predict_cap_counterexample :
    (predict (fun _ => [1, 0, 0]) 3 9).iters = 4 ∧
    ¬((predict (fun _ => [1, 0, 0]) 3 9).iters ≤ (9 + 3 - 1) / 3) ∧
    (predict (fun _ => [1, 0, 0]) 3 9).melFrames = 12 ∧
    ¬((predict (fun _ => [1, 0, 0]) 3 9).melFrames ≤ 9) := by
  decide

/-- C1 (amended): for every stop-distribution stream, `r` and
`max_length`, `predict` runs its decoding loop for at most
`floor(max_length / r) + 1` iterations and the returned mel contains at
most `(floor(max_length / r) + 1) * r` frames (exactly `r` frames per
executed iteration); with `r = 3`, `max_length = 9` this is at most 4
iterations and 12 frames. -/
theorem predict_iter_and_frame_bound (stopDist : ℕ → List ℚ) (r maxLength : ℕ) :
    (predict stopDist r maxLength).iters ≤ maxLength / r + 1 ∧
    (predict stopDist r maxLength).melFrames = r * (predict stopDist r maxLength).iters ∧
    (predict stopDist r maxLength).melFrames ≤ r * (maxLength / r + 1) := by
  refine ⟨predictLoopAux_iters_le _ _ _, rfl, ?_⟩
  exact Nat.mul_le_mul_left r (predictLoopAux_iters_le _ _ _)

/-- C2: `predict` exits its loop through the stop branch iff at some
visited iteration the argmax of the latest frame's stop distribution
equals `stop_prob_index`, whose value is 2; when no such iteration
occurs it runs all `floor(max_length / r) + 1` iterations of the cap. -/
theorem predict_stops_iff (stopDist : ℕ → List ℚ) (r maxLength : ℕ) :
    stop_prob_index = 2 ∧
    ((predict stopDist r maxLength).stopped = true ↔
      ∃ i, i < predictCap r maxLength ∧ listArgmax (stopDist i) = stop_prob_index) ∧
    ((predict stopDist r maxLength).stopped = false →
      (predict stopDist r maxLength).iters = predictCap r maxLength) := by
  refine ⟨rfl, ?_, ?_⟩
  · show (predictLoopAux _ 0 (predictCap r maxLength)).2 = true ↔ _
    rw [predictLoopAux_stopped_iff]
    constructor
    · rintro ⟨j, hj, hs⟩
      rw [Nat.zero_add] at hs
      exact ⟨j, hj, by simpa using hs⟩
    · rintro ⟨i, hi, hs⟩
      exact ⟨i, hi, by simpa using hs⟩
  · intro h
    exact predictLoopAux_not_stopped _ _ _ h

/-- Witness for C2 at a concrete input: with `r = 2`, `max_length = 5`
and a decoder whose stop distribution at iteration 1 puts its maximum
on class 2, the loop exits through the stop branch. -/
theorem predict_stops_iff_witness :
    (predict (fun i => if i = 1 then [0, 0, (1 : ℚ)] else [1, 0, 0]) 2 5).stopped = true :=
  (predict_stops_iff (fun i => if i = 1 then [0, 0, (1 : ℚ)] else [1, 0, 0]) 2 5).2.1.mpr
    ⟨1, by decide, by decide⟩

/-! ### `_gta_forward` (models.py lines 169-192)

The teacher-forced forward pass: the network call
`self.__call__(inputs=inp, targets=tar_mel, training=...)` is opaque and
abstracted as `model`; the claims concern the slicing around it. -/

/-- The entries of the autoregressive model's output bundle that
`_gta_forward` feeds to the losses: `final_output`, `stop_prob`,
`mel_linear`, each a sequence of frames for the (single) example. -/
structure ARModelOut where
  final_output : List (List ℚ)
  stop_prob : List (List ℚ)
  mel_linear : List (List ℚ)

/-- Modelled from the spec: `weighted_sum_losses` lives in
utils/losses.py, which is not under src/.  Per spec §4.3 it takes
aligned lists of targets, predictions, loss functions and weights,
computes each individual scalar loss and returns
`(weighted_sum, [individual_loss_values])`. -/
def weighted_sum_losses (targets preds : List (List (List ℚ)))
    (lossFns : List (List (List ℚ) → List (List ℚ) → ℚ))
    (weights : List ℚ) : ℚ × List ℚ :=
  let vals := (targets.zip (preds.zip lossFns)).map (fun tpf => tpf.2.2 tpf.1 tpf.2.1)
  (((weights.zip vals).map (fun wv => wv.1 * wv.2)).sum, vals)

/-- The pieces of `_gta_forward`'s result the claims are about: the
subsampled decoder input (`'reduced_target'`), the total loss and the
individual loss values. -/
structure GTAResult where
  reduced_target : List (List ℚ)
  loss : ℚ
  loss_vals : List ℚ

/-- Embeds `AutoregressiveTransformer._gta_forward` (models.py lines 169-192)
for one example: builds `tar_inp = tar[:-1]`, `tar_real = tar[1:]`,
`tar_stop_prob = stop_prob[1:]`, `mel_len = len(tar_inp)`, subsamples
`tar_mel = tar_inp[0::r]`, calls the model on `tar_mel` and computes the
weighted losses of the outputs sliced to `[:mel_len]` against the full
targets. -/
def gta_forward (model : List (List ℚ) → ARModelOut)
    (lossFns : List (List (List ℚ) → List (List ℚ) → ℚ))
    (weights : List ℚ) (r : ℕ)
    (tar stopProbSeq : List (List ℚ)) : GTAResult :=
  let tarInp := tar.dropLast
  let tarReal := tar.drop 1
  let tarStopProb := stopProbSeq.drop 1
  let melLen := tarInp.length
  let tarMel := everyNth r tarInp
  let out := model tarMel
  let lw := weighted_sum_losses
      [tarReal, tarStopProb, tarReal]
      [out.final_output.take melLen, out.stop_prob.take melLen, out.mel_linear.take melLen]
      lossFns weights
  ⟨tarMel, lw.1, lw.2⟩

/-- C3: the teacher-forced pass feeds the decoder exactly the frames of
`tar_inp = tar[:-1]` at indices `0, r, 2r, ...`, and computes the three
losses against the full unsubsampled `tar_real = tar[1:]` (and
`stop_prob[1:]`) with the model outputs sliced to the first `mel_len`
frames, where `mel_len = len(tar_inp) = len(tar) - 1`; the total loss is
the weighted sum of the three individual values. -/
theorem gta_forward_alignment
    (model : List (List ℚ) → ARModelOut)
    (f1 f2 f3 : List (List ℚ) → List (List ℚ) → ℚ)
    (w1 w2 w3 : ℚ) (r : ℕ) (hr : 1 ≤ r)
    (tar stopProbSeq : List (List ℚ)) :
    (∀ k, (gta_forward model [f1, f2, f3] [w1, w2, w3] r tar stopProbSeq).reduced_target.get? k
        = tar.dropLast.get? (r * k)) ∧
    (gta_forward model [f1, f2, f3] [w1, w2, w3] r tar stopProbSeq).loss_vals =
      [f1 (tar.drop 1) ((model (everyNth r tar.dropLast)).final_output.take (tar.length - 1)),
       f2 (stopProbSeq.drop 1) ((model (everyNth r tar.dropLast)).stop_prob.take (tar.length - 1)),
       f3 (tar.drop 1) ((model (everyNth r tar.dropLast)).mel_linear.take (tar.length - 1))] ∧
    (gta_forward model [f1, f2, f3] [w1, w2, w3] r tar stopProbSeq).loss =
      w1 * f1 (tar.drop 1) ((model (everyNth r tar.dropLast)).final_output.take (tar.length - 1)) +
      w2 * f2 (stopProbSeq.drop 1) ((model (everyNth r tar.dropLast)).stop_prob.take (tar.length - 1)) +
      w3 * f3 (tar.drop 1) ((model (everyNth r tar.dropLast)).mel_linear.take (tar.length - 1)) := by
  have hlen : tar.dropLast.length = tar.length - 1 := List.length_dropLast tar
  refine ⟨fun k => ?_, ?_, ?_⟩
  · simpa [gta_forward] using everyNth_get? r hr k tar.dropLast
  · simp [gta_forward, weighted_sum_losses, hlen]
  · simp [gta_forward, weighted_sum_losses, hlen]
    ring

/-- Witness for C3 at a concrete input: `r = 2`,
`tar = [[1],[2],[3],[4],[5]]`; the decoder input (`reduced_target`)
holds `tar_inp[0::2]`, so its entry at position 1 is frame `[3]` of
`tar_inp = [[1],[2],[3],[4]]`. -/
theorem gta_forward_alignment_witness :
    (gta_forward (fun x => ⟨x, x, x⟩)
        [fun t p => (t.length : ℚ) + p.length,
         fun t p => (t.length : ℚ) + p.length,
         fun t p => (t.length : ℚ) + p.length]
        [1, 1, 1] 2 [[(1 : ℚ)], [2], [3], [4], [5]]
        [[0], [0], [0], [0], [0]]).reduced_target.get? 1 = some [3] :=
  ((gta_forward_alignment (fun x => ⟨x, x, x⟩)
      (fun t p => (t.length : ℚ) + p.length)
      (fun t p => (t.length : ℚ) + p.length)
      (fun t p => (t.length : ℚ) + p.length)
      1 1 1 2 (by decide) [[(1 : ℚ)], [2], [3], [4], [5]]
      [[0], [0], [0], [0], [0]]).1 1).trans (by rfl)

/-! ### Attention diagnostics (metrics.py lines 28-40)

`attention_jumps_score` and `attention_peak_score` act independently on
each example and head (the batch/head axes are data-parallel); the
embedding takes the `[query, key]` slice `att` for one example-head
together with that example's valid length `melLen`.  The mask
`mel_mask[n, t] = (t < mel_len[n])` of `attention_score` is inlined. -/

/-- Embeds `attention_jumps_score` (metrics.py lines 28-34) for one
example-head.  `max_loc = argmax(att, axis=3)`;
`max_loc_diff = abs(max_loc[1:] - max_loc[:-1])`;
`loc_score = (diff >= 0) * (diff <= r)` summed under `mel_mask[1:]`,
divided by `mel_len - 1`.  The division is unguarded; a zero denominator
(`mel_len = 1`) yields a non-finite float, embedded as `none`. -/
def attention_jumps_score (att : List (List ℚ)) (melLen r : ℕ) : Option ℚ :=
  let maxLoc : List ℤ := att.map (fun row => (listArgmax row : ℤ))
  let maxLocDiff : List ℤ := List.zipWith (fun a b => |b - a|) maxLoc maxLoc.tail
  let locScore : List ℤ := maxLocDiff.map
      (fun d => (if 0 ≤ d then 1 else 0) * (if d ≤ (r : ℤ) then 1 else 0))
  let masked : List ℤ := List.zipWith (fun s j => s * (if j + 1 < melLen then 1 else 0))
      locScore (List.range locScore.length)
  if melLen = 1 then none else some ((masked.sum : ℚ) / ((melLen : ℚ) - 1))

/-- Modelled from the spec: the jump score as §4.4 describes it, a
count of valid steps whose signed argmax change satisfies
`0 ≤ Δargmax ≤ r` (peak never moves backward), divided by
`mel_len − 1`. -/
def jumps_score_spec (att : List (List ℚ)) (melLen r : ℕ) : Option ℚ :=
  let maxLoc : List ℤ := att.map (fun row => (listArgmax row : ℤ))
  let maxLocDiff : List ℤ := List.zipWith (fun a b => b - a) maxLoc maxLoc.tail
  let locScore : List ℤ := maxLocDiff.map
      (fun d => (if 0 ≤ d then 1 else 0) * (if d ≤ (r : ℤ) then 1 else 0))
  let masked : List ℤ := List.zipWith (fun s j => s * (if j + 1 < melLen then 1 else 0))
      locScore (List.range locScore.length)
  if melLen = 1 then none else some ((masked.sum : ℚ) / ((melLen : ℚ) - 1))

/-- C4 (code divergence): on an attention path whose peak jumps
backward by one key at every step (argmax sequence 2, 1, 0) with
`r = 1` and `mel_len = 3`, the code scores 1.0 — because it tests
`abs(Δargmax) ≤ r`, the vacuous `diff >= 0` check notwithstanding —
while the specified signed criterion `0 ≤ Δargmax ≤ r` scores 0.0. -/
theorem attention_jumps_score_backward_path :
    attention_jumps_score [[0, 0, 1], [0, 1, 0], [(1 : ℚ), 0, 0]] 3 1 = some 1 ∧
    jumps_score_spec [[0, 0, 1], [0, 1, 0], [(1 : ℚ), 0, 0]] 3 1 = some 0 ∧
    some (1 : ℚ) ≠ some 0 := by
  refine ⟨?_, ?_, by norm_num⟩
  · norm_num [attention_jumps_score, listArgmax, listMax, max_def, List.range_succ]
  · norm_num [jumps_score_spec, listArgmax, listMax, max_def, List.range_succ]

/-- C9: the jump score's division by `mel_len − 1` is unguarded: for
`mel_len = 1` the denominator is zero and the result is not a valid
rational (`none`); for every `mel_len ≥ 2` the score is a well-defined
rational. -/
theorem attention_jumps_score_defined_iff (att : List (List ℚ)) (r melLen : ℕ) :
    attention_jumps_score att 1 r = none ∧
    (2 ≤ melLen → (attention_jumps_score att melLen r).isSome = true) := by
  constructor
  · simp [attention_jumps_score]
  · intro h
    have hne : melLen ≠ 1 := by omega
    simp [attention_jumps_score, hne]

/-- Witness for C9 at a concrete input: a 2×2 attention slice with
`mel_len = 2` has a well-defined jump score. -/
theorem attention_jumps_score_defined_witness :
    (attention_jumps_score [[(1 : ℚ), 0], [0, 1]] 2 1).isSome = true :=
  (attention_jumps_score_defined_iff [[(1 : ℚ), 0], [0, 1]] 1 2).2 (by decide)

/-- Embeds `attention_peak_score` (metrics.py lines 37-40) for one
example-head: per-row maxima (`reduce_max` over the key axis),
multiplied by the validity mask, then `reduce_mean` over the **full**
(padded) query axis. -/
def attention_peak_score (att : List (List ℚ)) (melLen : ℕ) : ℚ :=
  let maxRow := att.map listMax
  let masked := List.zipWith (fun m j => m * (if j < melLen then (1 : ℚ) else 0))
      maxRow (List.range maxRow.length)
  masked.sum / (att.length : ℚ)

/-- Modelled from the spec: the peak score as §4.4 describes it, the
mean over the valid query positions only (the first `mel_len` rows) of
each row's maximum. -/
def peak_score_spec (att : List (List ℚ)) (melLen : ℕ) : ℚ :=
  ((att.take melLen).map listMax).sum / (melLen : ℚ)

/-- C5 (counterexample): for a 2-row attention slice with only 1 valid
row, the code divides the masked sum by the padded row count 2, giving
1/2, while the claimed mean over valid rows is 1. -/
theorem attention_peak_score_counterexample :
    attention_peak_score [[(1 : ℚ), 0], [0, 1]] 1 = 1 / 2 ∧
    peak_score_spec [[(1 : ℚ), 0], [0, 1]] 1 = 1 ∧
    (1 / 2 : ℚ) ≠ 1 := by
  refine ⟨?_, ?_, by norm_num⟩
  · norm_num [attention_peak_score, listMax, max_def, List.range_succ]
  · norm_num [peak_score_spec, listMax, max_def]

theorem masked_sum_take (l : List ℚ) :
    ∀ s m : ℕ,
      (List.zipWith (fun x j => x * (if j < m then (1 : ℚ) else 0)) l
          (List.range' s l.length)).sum = (l.take (m - s)).sum := by
  induction l with
  | nil => intro s m; simp
  | cons a t ih =>
      intro s m
      rw [List.length_cons, List.range'_succ, List.zipWith_cons_cons, List.sum_cons, ih (s + 1) m]
      by_cases hs : s < m
      · have h1 : m - s = (m - (s + 1)) + 1 := by omega
        rw [h1, List.take_succ_cons, List.sum_cons, if_pos hs, mul_one]
      · have h1 : m - s = 0 := by omega
        have h2 : m - (s + 1) = 0 := by omega
        rw [h1, h2, if_neg hs, mul_zero]
        simp

/-- C5 (amended): the peak score equals the sum over the valid query
rows (the first `mel_len`) of each row's maximum attention weight,
divided by the **padded** number of query rows — invalid rows contribute
zero to the sum but still count in the denominator. -/
theorem attention_peak_score_amended (att : List (List ℚ)) (melLen : ℕ) :
    attention_peak_score att melLen
      = ((att.take melLen).map listMax).sum / (att.length : ℚ) := by
  simp only [attention_peak_score, List.range_eq_range']
  rw [masked_sum_take (att.map listMax) 0 melLen, Nat.sub_zero, ← List.map_take]

/-! ### Forward model pitch loss (models.py lines 395-424 and 434-459)

`_train_step` and `_val_step` compute the identical pitch-error term;
the surrounding mel/duration losses and the gradient step are opaque
network state updates, the claim is about this arithmetic fragment. -/

/-- Embeds `tf.linspace(a, b, n)`: `n` evenly spaced values from `a` to `b`
inclusive; `n = 1` yields `[a]`, `n = 0` yields `[]`. -/
def tf_linspace (a b : ℚ) (n : ℕ) : List ℚ :=
  if n ≤ 1 then List.replicate n a
  else (List.range n).map (fun i => a + (b - a) * i / ((n : ℚ) - 1))

/-- Elementwise combination of two `[batch, time, channel]` tensors of
equal shape. -/
def ew2 (f : ℚ → ℚ → ℚ) (x y : List (List (List ℚ))) : List (List (List ℚ)) :=
  List.zipWith (List.zipWith (List.zipWith f)) x y

/-- Embeds `tf.expand_dims(x, -1)` on a `[batch, time]` tensor: append a
trailing axis of size 1. -/
def expandDimsLast (x : List (List ℚ)) : List (List (List ℚ)) :=
  x.map (fun row => row.map (fun v => [v]))

/-- Embeds `tf.shape(t)[-1]` of a `[batch, time, channel]` tensor. -/
def lastDim (t : List (List (List ℚ))) : ℕ := ((t.headD []).headD []).length

/-- Embeds `tf.reduce_mean` over all entries of a `[batch, time, channel]`
tensor. -/
def tmean3 (t : List (List (List ℚ))) : ℚ :=
  let flat := (t.map List.flatten).flatten
  flat.sum / (flat.length : ℚ)

/-- The pitch-loss fragment of `ForwardTransformer._train_step`
(models.py lines 397, 411-415) and `_val_step` (lines 436, 450-454):
`target_pitch = tf.expand_dims(target_pitch, -1)`;
`error_mask = cast(logical_not(equal(target_pitch, 0)))`;
`abs_err = abs(model_out['pitch'] - target_pitch) * error_mask`;
`ts_weight = square(linspace(1, 2, tf.shape(target_pitch)[-1]))`;
`pitch_error = reduce_mean(abs_err * ts_weight)` — the `ts_weight`
broadcast runs along the last axis, which `expand_dims` just made size
1.  `pitchPred` is the model's `[batch, tokens, 1]` pitch head output. -/
def pitch_error (targetPitch : List (List ℚ)) (pitchPred : List (List (List ℚ))) : ℚ :=
  let tp := expandDimsLast targetPitch
  let errorMask := tp.map (List.map (List.map (fun v => if v = 0 then (0 : ℚ) else 1)))
  let absErr := ew2 (fun p t => |p - t|) pitchPred tp
  let absErrMasked := ew2 (· * ·) absErr errorMask
  let tsWeight := (tf_linspace 1 2 (lastDim tp)).map (fun w => w * w)
  let weighted := absErrMasked.map (List.map (fun c => List.zipWith (· * ·) c tsWeight))
  tmean3 weighted

/-- Modelled from the spec: the pitch term as §4.2 describes it — the
squared `linspace(1, 2, ·)` weight runs along each token's pitch
trajectory (the time axis), so the last position weighs 4 times the
first; zero-target positions contribute zero; mean over all entries. -/
def pitch_error_spec (targetPitch pitchPred : List (List ℚ)) : ℚ :=
  let err := List.zipWith (fun trow prow =>
      List.zipWith (fun t p => (if t = 0 then (0 : ℚ) else 1) * |p - t|) trow prow)
    targetPitch pitchPred
  let weighted := err.map (fun row =>
      List.zipWith (· * ·) row ((tf_linspace 1 2 row.length).map (fun w => w * w)))
  let flat := weighted.flatten
  flat.sum / (flat.length : ℚ)

/-- C6 (code divergence): because `ts_weight` is built from
`tf.shape(target_pitch)[-1]` **after** `expand_dims(-1)`, its length is
1 and every position receives weight `1² = 1`: on the batch with target
pitch `[0, 1]` and predicted pitch `[1, 3]`, the code's pitch error is
the unweighted masked mean 1, whereas the specified trajectory
weighting (weights `1², 2²`) gives 4. -/
theorem pitch_error_time_weight_inert :
    pitch_error [[0, (1 : ℚ)]] [[[1], [3]]] = 1 ∧
    pitch_error_spec [[0, (1 : ℚ)]] [[1, 3]] = 4 ∧
    (1 : ℚ) ≠ 4 := by
  refine ⟨?_, ?_, by norm_num⟩
  · norm_num [pitch_error, expandDimsLast, ew2, lastDim, tf_linspace, tmean3]
  · norm_num [pitch_error_spec, tf_linspace, List.range_succ]

/-! ### Forward model `predict` duration pipeline (models.py lines 534-560)

The duration predictor head is opaque; `durations` stands for its
per-token output.  A float cap of `inf` is embedded as `none`, a finite
cap as `some v`; `tf.math.minimum(d, inf) = d`.  The tokenizer call
`self.text_pipeline.tokenizer(item[0])[0]` is abstracted as
`tokFirst : String → ℕ`. -/

/-- Embeds `tf.math.minimum` of a duration against one mask entry (`none` is
the `float('inf')` cap, absorbing under `min`). -/
def capDuration (d : ℚ) : Option ℚ → ℚ
  | none => d
  | some v => min d v

/-- Embeds `ForwardTransformer._make_max_duration_mask` (models.py lines
549-560): default mapping `{' ': 3.}` when called with `None`; base mask
of `phoneme_max_duration['any']` when an `'any'` key exists, else `inf`;
then every mapping item overwrites the positions whose token id equals
the first token of its symbol. -/
def make_max_duration_mask (tokFirst : String → ℕ) (encodedText : List ℕ)
    (phonemeMaxDuration : Option (List (String × ℚ))) : List (Option ℚ) :=
  let pmd := phonemeMaxDuration.getD [(" ", 3)]
  let base : Option ℚ :=
    match pmd.find? (fun it => it.1 == "any") with
    | some it => some it.2
    | none => none
  pmd.foldl
    (fun mask it =>
      List.zipWith (fun t old => if t = tokFirst it.1 then some it.2 else old)
        encodedText mask)
    (encodedText.map (fun _ => base))

/-- The duration pipeline of `ForwardTransformer.predict` (models.py
lines 534-547) together with the masking in `call` (lines 495-497):
durations are scaled by `duration_scalar = 1 / speed_regulator`; a cap
mask is built and applied via `tf.math.minimum` **only when**
`phoneme_max_duration is not None` (otherwise `predict` takes the
`self.forward` path, which passes `durations_mask=None`). -/
def predict_durations (tokFirst : String → ℕ) (durations : List ℚ)
    (encodedText : List ℕ) (speedRegulator : ℚ)
    (phonemeMaxDuration : Option (List (String × ℚ))) : List ℚ :=
  let durationScalar := 1 / speedRegulator
  let scaled := durations.map (· * durationScalar)
  match phonemeMaxDuration with
  | some pmd =>
      List.zipWith capDuration scaled (make_max_duration_mask tokFirst encodedText (some pmd))
  | none => scaled

/-- Modelled from the spec: the duration pipeline as the C7 claim reads
it, with the cap mask always applied, so that with no mapping supplied
`_make_max_duration_mask`'s default (`inf` everywhere, space capped at
3.0) takes effect. -/
def predict_durations_spec (tokFirst : String → ℕ) (durations : List ℚ)
    (encodedText : List ℕ) (speedRegulator : ℚ)
    (phonemeMaxDuration : Option (List (String × ℚ))) : List ℚ :=
  let scaled := durations.map (· * (1 / speedRegulator))
  List.zipWith capDuration scaled
    (make_max_duration_mask tokFirst encodedText phonemeMaxDuration)

/-- C7 (counterexample): with no `phoneme_max_duration` mapping, a
space token (id 7 under the tokenizer) whose scaled predicted duration
is 6 keeps duration 6 under the code — `predict` bypasses the mask
entirely — while the claimed default cap (space at 3.0) would yield 3. -/
theorem predict_durations_no_mapping_counterexample :
    predict_durations (fun s => if s = " " then 7 else 0) [6] [7] 1 none = [6] ∧
    predict_durations_spec (fun s => if s = " " then 7 else 0) [6] [7] 1 none = [3] ∧
    ([6] : List ℚ) ≠ [3] := by
  refine ⟨?_, ?_, by norm_num⟩
  · norm_num [predict_durations]
  · norm_num [predict_durations_spec, make_max_duration_mask, capDuration, min_def]

/-- The value that the mask-building loop leaves at a position holding
token `tid`: the value of the **last** mapping item whose symbol's
first token is `tid` (later `new_mask[np_text == phon_idx] = item[1]`
assignments overwrite earlier ones), if any. -/
def lastMatch (tokFirst : String → ℕ) (tid : ℕ) : List (String × ℚ) → Option ℚ
  | [] => none
  | it :: l =>
    match lastMatch tokFirst tid l with
    | some v => some v
    | none => if tid = tokFirst it.1 then some it.2 else none

theorem get?_zipWith (f : α → β → γ) :
    ∀ (l1 : List α) (l2 : List β) (i : ℕ) (a : α) (b : β),
      l1.get? i = some a → l2.get? i = some b →
      (List.zipWith f l1 l2).get? i = some (f a b) := by
  intro l1
  induction l1 with
  | nil => intro l2 i a b h1 _; simp at h1
  | cons x t ih =>
      intro l2 i a b h1 h2
      cases l2 with
      | nil => simp at h2
      | cons y s =>
          cases i with
          | zero =>
              simp only [List.get?] at h1 h2
              cases h1; cases h2
              rfl
          | succ i =>
              simp only [List.get?] at h1 h2 ⊢
              exact ih s i a b h1 h2

theorem foldl_mask_get? (tokFirst : String → ℕ) (txt : List ℕ) (tid : ℕ) (i : ℕ) :
    ∀ (pmd : List (String × ℚ)) (init : List (Option ℚ)) (v0 : Option ℚ),
      txt.get? i = some tid → init.get? i = some v0 →
      (pmd.foldl
        (fun mask it =>
          List.zipWith (fun t old => if t = tokFirst it.1 then some it.2 else old)
            txt mask)
        init).get? i =
      some (match lastMatch tokFirst tid pmd with
            | some v => some v
            | none => v0) := by
  intro pmd
  induction pmd with
  | nil =>
      intro init v0 h1 h2
      simpa [lastMatch] using h2
  | cons it l ih =>
      intro init v0 h1 h2
      rw [List.foldl_cons]
      have hstep := get?_zipWith
        (fun t old => if t = tokFirst it.1 then some it.2 else old) txt init i tid v0 h1 h2
      rw [ih _ _ h1 hstep]
      cases hl : lastMatch tokFirst tid l with
      | some v => simp [lastMatch, hl]
      | none =>
          simp only [lastMatch, hl]
          by_cases hc : tid = tokFirst it.1
          · simp [hc]
          · simp [hc]

/-- C7 (amended): durations are scaled by `1 / speed_regulator`; with a
mapping supplied, each position is capped by the last matching mapping
item, falling back to the `'any'` entry's global cap, else to `inf`
(no cap); with **no** mapping supplied, `predict` applies no cap at all
— in particular the space-at-3.0 default inside
`_make_max_duration_mask` is never reached from `predict`. -/
theorem predict_durations_characterization (tokFirst : String → ℕ)
    (durations : List ℚ) (txt : List ℕ) (speed : ℚ) :
    predict_durations tokFirst durations txt speed none
      = durations.map (· * (1 / speed)) ∧
    ∀ (m : List (String × ℚ)) (i : ℕ) (d : ℚ) (tid : ℕ),
      durations.get? i = some d → txt.get? i = some tid →
      (predict_durations tokFirst durations txt speed (some m)).get? i =
        some (capDuration (d * (1 / speed))
          (match lastMatch tokFirst tid m with
           | some v => some v
           | none =>
             match m.find? (fun it => it.1 == "any") with
             | some it => some it.2
             | none => none)) := by
  constructor
  · rfl
  · intro m i d tid hd ht
    have hscaled : (durations.map (· * (1 / speed))).get? i = some (d * (1 / speed)) := by
      rw [List.get?_map, hd]
      rfl
    have hbase : (txt.map (fun _ =>
        (match m.find? (fun it => it.1 == "any") with
         | some it => some it.2
         | none => none : Option ℚ))).get? i =
        some (match m.find? (fun it => it.1 == "any") with
              | some it => some it.2
              | none => none) := by
      rw [List.get?_map, ht]
      rfl
    have hmask := foldl_mask_get? tokFirst txt tid i m _ _ ht hbase
    show (List.zipWith capDuration (durations.map (· * (1 / speed)))
        (make_max_duration_mask tokFirst txt (some m))).get? i = _
    exact get?_zipWith capDuration _ _ i _ _ hscaled hmask

/-- Witness for C7 (amended) at a concrete input: token id 1, predicted
duration 5, speed 1, mapping `[("a", 2)]` whose symbol tokenizes to 1 —
the pipeline caps the duration at 2. -/
theorem predict_durations_characterization_witness :
    (predict_durations (fun _ => 1) [5] [1] 1 (some [("a", 2)])).get? 0 = some 2 :=
  ((predict_durations_characterization (fun _ => 1) [5] [1] 1).2
      [("a", 2)] 0 5 1 rfl rfl).trans
    (by norm_num [lastMatch, capDuration, min_def])

/-! ### `ConfigLoader` (config_loader.py lines 13-21, 95-105)

The config is a key-value mapping; its values (numbers, lists,
schedules) are opaque to the checked control flow and embedded by a type
parameter `V`.  Python `assert` and `KeyError` both abort `__init__`;
they are the two error constructors. -/

/-- The `key_list` of `ConfigLoader._check_config` (config_loader.py
lines 96-102). -/
def required_keys : List String :=
  ["mel_channels", "decoder_model_dimension",
   "encoder_model_dimension", "decoder_num_heads", "encoder_num_heads",
   "encoder_feed_forward_dimension", "decoder_feed_forward_dimension",
   "decoder_prenet_dimension", "encoder_max_position_encoding",
   "decoder_max_position_encoding",
   "postnet_conv_filters",
   "postnet_conv_layers", "postnet_kernel_size", "dropout_rate", "debug",
   "mel_start_value", "mel_end_value"]

/-- The ways `ConfigLoader.__init__` can abort: the `_check_config`
assertion carrying the list of missing keys, or a `KeyError` from a
direct `self.config[...]` subscript. -/
inductive ConfigError where
  | missingKeys (missing : List String)
  | keyError (key : String)
  deriving DecidableEq, Repr

/-- Embeds `set(self.config.keys())` membership, over an association-list
config. -/
def configKeys (cfg : List (String × V)) : List String := cfg.map Prod.fst

/-- Embeds `missing = [key for key in key_list if key not in config_keys]`
(config_loader.py line 104). -/
def missingOf (cfg : List (String × V)) : List String :=
  required_keys.filter (fun k => !(configKeys cfg).contains k)

/-- Embeds `ConfigLoader._check_config` (config_loader.py lines 95-105):
`assert len(missing) == 0, 'Configuration file error. Missing keys {missing}'`. -/
def check_config (cfg : List (String × V)) : Except ConfigError Unit :=
  if (missingOf cfg).length = 0 then .ok () else .error (.missingKeys (missingOf cfg))

/-- Subscript `self.config[k]`: the value, or a `KeyError`. -/
def configGet (cfg : List (String × V)) (k : String) : Except ConfigError V :=
  match cfg.find? (fun it => it.1 == k) with
  | some it => .ok it.2
  | none => .error (.keyError k)

/-- Embeds `ConfigLoader.__init__` (config_loader.py lines 13-21) once the
config mapping is in hand: `_check_config` runs first; only then are
`learning_rate_schedule` and `reduction_factor_schedule` subscripted and
the optional `stop_loss_scaling` read with `config.get` (absence gives
the caller's default, embedded as `none`).  No model parameters are
allocated here — `get_model` is a separate later call. -/
def configLoader_init (cfg : List (String × V)) : Except ConfigError (V × V × Option V) :=
  (check_config cfg).bind (fun _ =>
    (configGet cfg ("learning_rate_schedule")).bind (fun lr =>
      (configGet cfg ("reduction_factor_schedule")).bind (fun rf =>
        .ok (lr, rf, (configGet cfg ("stop_loss_scaling")).toOption))))

theorem configGet_error_is_keyError (cfg : List (String × V)) (k : String)
    (e : ConfigError) : configGet cfg k = .error e → e = .keyError k := by
  unfold configGet
  cases h : cfg.find? (fun it => it.1 == k) with
  | none => intro he; cases he; rfl
  | some it => intro he; cases he

/-- C8: construction fails with the missing-keys configuration error
iff some required key is absent, and then the error lists exactly the
required keys that are absent (every one of them); when all required
keys are present, no missing-keys configuration error is raised. -/
theorem configLoader_init_missing_keys (cfg : List (String × V)) :
    (missingOf cfg = [] → ∀ m, configLoader_init cfg ≠ .error (.missingKeys m)) ∧
    (missingOf cfg ≠ [] → configLoader_init cfg = .error (.missingKeys (missingOf cfg))) ∧
    (∀ k, k ∈ missingOf cfg ↔ k ∈ required_keys ∧ (configKeys cfg).contains k = false) := by
  refine ⟨?_, ?_, ?_⟩
  · intro hm m hcontra
    have hchk : check_config cfg = .ok () := by simp [check_config, hm]
    unfold configLoader_init at hcontra
    rw [hchk] at hcontra
    simp only [Except.bind] at hcontra
    cases h1 : configGet cfg ("learning_rate_schedule") with
    | error e =>
        rw [h1] at hcontra
        rw [configGet_error_is_keyError cfg _ e h1] at hcontra
        simp [Except.bind] at hcontra
    | ok v =>
        rw [h1] at hcontra
        simp only [Except.bind] at hcontra
        cases h2 : configGet cfg ("reduction_factor_schedule") with
        | error e2 =>
            rw [h2] at hcontra
            rw [configGet_error_is_keyError cfg _ e2 h2] at hcontra
            simp [Except.bind] at hcontra
        | ok w =>
            rw [h2] at hcontra
            simp [Except.bind] at hcontra
  · intro hm
    have hlen : ¬(missingOf cfg).length = 0 := by
      intro h
      exact hm (List.length_eq_zero.mp h)
    simp [configLoader_init, check_config, hlen, Except.bind]
  · intro k
    simp [missingOf, List.mem_filter]

/-- Witness for C8 at a concrete config holding only `mel_channels`:
construction aborts with the assertion error listing the sixteen other
required keys. -/
theorem configLoader_init_missing_keys_witness :
    configLoader_init [(("mel_channels" : String), (80 : ℕ))] =
      .error (.missingKeys
        ["decoder_model_dimension", "encoder_model_dimension", "decoder_num_heads",
         "encoder_num_heads", "encoder_feed_forward_dimension",
         "decoder_feed_forward_dimension", "decoder_prenet_dimension",
         "encoder_max_position_encoding", "decoder_max_position_encoding",
         "postnet_conv_filters", "postnet_conv_layers", "postnet_kernel_size",
         "dropout_rate", "debug", "mel_start_value", "mel_end_value"]) :=
  ((configLoader_init_missing_keys [(("mel_channels" : String), (80 : ℕ))]).2.1
      (by decide)).trans
    (congrArg
      (fun l => (Except.error (ConfigError.missingKeys l) : Except ConfigError (ℕ × ℕ × Option ℕ)))
      (by decide))

/-! ### `ForwardTransformer.set_constants` (models.py lines 522-529)

The mutable per-instance state the setter can reach: the network
weights (opaque, type parameter), the optimizer learning rate, the
head-drop count, the decoder-prenet dropout rate, and the compiled call
signatures — embedded as a generation counter `sigGen` that
`_apply_all_signatures` bumps. -/

structure FwdState (α : Type) where
  weights : α
  lr : ℚ
  dropNHeads : ℕ
  prenetDropoutRate : ℚ
  sigGen : ℕ
  deriving DecidableEq, Repr

/-- Embeds `ForwardTransformer._apply_all_signatures` (models.py lines
383-387): rebuilds the compiled entry points — observable here as a
bump of the signature generation. -/
def apply_all_signatures (s : FwdState α) : FwdState α :=
  { s with sigGen := s.sigGen + 1 }

/-- Embeds `ForwardTransformer._set_heads` (models.py lines 389-393): early
return when the new count equals the current one, else assign and
rebuild the signatures. -/
def set_heads (s : FwdState α) (heads : ℕ) : FwdState α :=
  if s.dropNHeads = heads then s
  else apply_all_signatures { s with dropNHeads := heads }

/-- Embeds `ForwardTransformer.set_constants` (models.py lines 522-529): the
`decoder_prenet_dropout` branch is commented out, a `reduction_factor`
keyword is swallowed by `**kwargs`; only `learning_rate` and
`drop_n_heads` act. -/
def set_constants (s : FwdState α) (decoderPrenetDropout learningRate : Option ℚ)
    (dropNHeads : Option ℕ) (reductionFactor : Option ℚ) : FwdState α :=
  let s1 := match learningRate with
    | some lr => { s with lr := lr }
    | none => s
  match dropNHeads with
  | some h => set_heads s1 h
  | none => s1

/-- C10: `set_constants` changes only the learning rate and the
head-drop count — the weights and the prenet dropout rate are
untouched, a supplied `decoder_prenet_dropout` and any
`reduction_factor` keyword are ignored (the call equals one passing
neither) — and a `drop_n_heads` equal to the current value leaves the
compiled signatures unrebuilt. -/
theorem set_constants_frame (s : FwdState α) (d lr : Option ℚ) (h : Option ℕ)
    (rf : Option ℚ) :
    (set_constants s d lr h rf).weights = s.weights ∧
    (set_constants s d lr h rf).prenetDropoutRate = s.prenetDropoutRate ∧
    (set_constants s d lr h rf).lr = lr.getD s.lr ∧
    (set_constants s d lr h rf).dropNHeads = h.getD s.dropNHeads ∧
    set_constants s d lr h rf = set_constants s none lr h none ∧
    (h = some s.dropNHeads → (set_constants s d lr h rf).sigGen = s.sigGen) := by
  cases lr with
  | none =>
      cases h with
      | none => simp [set_constants]
      | some x =>
          by_cases hx : s.dropNHeads = x
          · simp [set_constants, set_heads, hx]
          · refine ⟨?_, ?_, ?_, ?_, ?_, ?_⟩ <;>
              simp [set_constants, set_heads, hx, apply_all_signatures]
            intro hs
            exact absurd hs.symm hx
  | some l =>
      cases h with
      | none => simp [set_constants]
      | some x =>
          by_cases hx : s.dropNHeads = x
          · simp [set_constants, set_heads, hx]
          · refine ⟨?_, ?_, ?_, ?_, ?_, ?_⟩ <;>
              simp [set_constants, set_heads, hx, apply_all_signatures]
            intro hs
            exact absurd hs.symm hx

/-- Witness for C10 at a concrete state: with current head-drop count
2, the call `set_constants(decoder_prenet_dropout=3/4, learning_rate=7,
drop_n_heads=2, reduction_factor=4)` leaves the signature generation at
its old value 5. -/
theorem set_constants_frame_witness :
    (set_constants (⟨0, 1, 2, 1 / 2, 5⟩ : FwdState ℕ)
        (some (3 / 4)) (some 7) (some 2) (some 4)).sigGen = 5 :=
  (set_constants_frame (⟨0, 1, 2, 1 / 2, 5⟩ : FwdState ℕ)
      (some (3 / 4)) (some 7) (some 2) (some 4)).2.2.2.2.2 rfl

end TTS
